import Mathlib

/-!
Verification of the `TwigFormatter` engine of `src/extension.js`
(repository `kissumisha/ultimate-twig`).

The JavaScript source drives everything through regular expressions, so this
development first builds a small, total, executable matcher for exactly the
regex features the source uses (literals, character classes, greedy and lazy
class quantifiers, alternation, optional groups, numbered capture groups,
backreferences, the `$` end anchor, and JavaScript `String.replace`
replacement-pattern expansion).  Each JavaScript regex of the source is then
transliterated into a value of the `RE` type, and `TwigFormatter.format` with
its helpers is embedded as a pure state-passing function over lines.
-/

namespace TwigFmt

/-- JavaScript `\s` (the whitespace characters relevant to this source). -/
def jsWs (c : Char) : Bool :=
  c = ' ' || c = '\t' || c = '\n' || c = '\r' || c = '\x0b' || c = '\x0c'

/-- JavaScript `.` : any character except a line terminator. -/
def jsDot (c : Char) : Bool :=
  c ≠ '\n' && c ≠ '\r'

/-- JavaScript `\w` : word characters. -/
def jsWord (c : Char) : Bool :=
  c.isAlphanum || c = '_'

/-- `String.prototype.trim`: strip leading and trailing whitespace. -/
def trimList (l : List Char) : List Char :=
  ((l.dropWhile jsWs).reverse.dropWhile jsWs).reverse

/-- `trim` on strings. -/
def jsTrim (s : String) : String :=
  String.mk (trimList s.data)

/-- Count the occurrences of a character in a string
(`s.split(ch).length - 1` in the source). -/
def countChar (c : Char) (s : String) : Nat :=
  (s.data.filter (fun x => x = c)).length

/-- Capture environment: group number paired with the captured characters.
The most recent capture of a group shadows older ones. -/
abbrev Caps := List (Nat × List Char)

/-- Look up the latest capture of group `n`. -/
def capLookup (n : Nat) (cs : Caps) : Option (List Char) :=
  match cs with
  | [] => none
  | (m, t) :: r => if m = n then some t else capLookup n r

/-- The regex fragment language used by `extension.js`.
Quantifiers (`star`) range over single character classes only, which covers
every pattern in the source; `lzy = true` gives the lazy (`*?`) variant. -/
inductive RE where
  | eps : RE
  | lit : List Char → RE
  | cls : (Char → Bool) → RE
  | seq : RE → RE → RE
  | alt : RE → RE → RE
  | opt : RE → RE
  | star : (Char → Bool) → Bool → RE
  | grp : Nat → RE → RE
  | bref : Nat → RE
  | eol : RE

/-- Backtracking loop for a class quantifier.  Greedy tries the longest
consumption first, lazy tries the continuation first. -/
def starLoop (p : Char → Bool) (lzy : Bool) :
    List Char → Caps → (List Char → Caps → Option (List Char × Caps)) →
    Option (List Char × Caps)
  | s, cs, k =>
    if lzy then
      match k s cs with
      | some r => some r
      | none =>
        match s with
        | [] => none
        | c :: r => if p c then starLoop p lzy r cs k else none
    else
      match s with
      | [] => k s cs
      | c :: r =>
        if p c then
          match starLoop p lzy r cs k with
          | some res => some res
          | none => k s cs
        else k s cs

/-- CPS backtracking matcher.  `matchRE re s cs k` tries to match `re` at the
start of `s` and calls `k` with the remaining input and captures; the first
success in JavaScript backtracking order is returned. -/
def matchRE : RE → List Char → Caps →
    (List Char → Caps → Option (List Char × Caps)) → Option (List Char × Caps)
  | .eps, s, cs, k => k s cs
  | .lit l, s, cs, k =>
    if l.isPrefixOf s then k (s.drop l.length) cs else none
  | .cls p, s, cs, k =>
    match s with
    | [] => none
    | c :: r => if p c then k r cs else none
  | .seq a b, s, cs, k => matchRE a s cs (fun s2 cs2 => matchRE b s2 cs2 k)
  | .alt a b, s, cs, k =>
    (match matchRE a s cs k with
     | some r => some r
     | none => matchRE b s cs k)
  | .opt a, s, cs, k =>
    (match matchRE a s cs k with
     | some r => some r
     | none => k s cs)
  | .star p l, s, cs, k => starLoop p l s cs k
  | .grp n a, s, cs, k =>
    matchRE a s cs (fun s2 cs2 => k s2 ((n, s.take (s.length - s2.length)) :: cs2))
  | .bref n, s, cs, k =>
    (match capLookup n cs with
     | some t => if t.isPrefixOf s then k (s.drop t.length) cs else none
     | none => k s cs)
  | .eol, s, cs, k => if s.isEmpty then k s cs else none

/-- Match `re` at the very start of the input (the way an `^`-anchored
JavaScript regex matches).  Returns (matched length, captures). -/
def matchAt (re : RE) (s : List Char) : Option (Nat × Caps) :=
  match matchRE re s [] (fun rest cs => some (rest, cs)) with
  | some (rest, cs) => some (s.length - rest.length, cs)
  | none => none

/-- Unanchored search: try each start position from the left; returns
(start index, matched length, captures) of the leftmost match. -/
def searchAux (re : RE) : List Char → Nat → Option (Nat × Nat × Caps)
  | s, i =>
    match matchAt re s with
    | some (len, cs) => some (i, len, cs)
    | none =>
      match s with
      | [] => none
      | _ :: r => searchAux re r (i + 1)

/-- Leftmost search on a string. -/
def reSearch (re : RE) (s : String) : Option (Nat × Nat × Caps) :=
  searchAux re s.data 0

/-- JavaScript `re.test(s)` / truthiness of `s.match(re)`. -/
def reTest (re : RE) (s : String) : Bool :=
  (reSearch re s).isSome

/-- The text matched by a search result inside `l`. -/
def sliceOf (l : List Char) (i len : Nat) : List Char :=
  (l.drop i).take len

/-- Non-global `s.replace(re, f)` with a replacement computed from the matched
text and the captures (the callback form of `String.replace`). -/
def replaceFirst (re : RE) (f : List Char → Caps → List Char) (s : List Char) :
    List Char :=
  match searchAux re s 0 with
  | none => s
  | some (i, len, cs) =>
    s.take i ++ f (sliceOf s i len) cs ++ s.drop (i + len)

/-- `^`-anchored non-global replace (used for `/^([^\x7b%]+?)\s*(\x7b[\x7b%])/`). -/
def replaceAtStart (re : RE) (f : List Char → Caps → List Char) (s : List Char) :
    List Char :=
  match matchAt re s with
  | none => s
  | some (len, cs) => f (s.take len) cs ++ s.drop len

/-- Global `s.replace(re, f)`; fuel bounds the number of replacements (every
pattern the source uses globally consumes at least one character per match,
so `s.length` fuel is enough). -/
def replaceGlobalAux (re : RE) (f : List Char → Caps → List Char) :
    Nat → List Char → List Char
  | 0, s => s
  | fuel + 1, s =>
    match searchAux re s 0 with
    | none => s
    | some (i, len, cs) =>
      if len = 0 then s
      else
        s.take i ++ f (sliceOf s i len) cs ++
          replaceGlobalAux re f fuel (s.drop (i + len))

def replaceGlobal (re : RE) (f : List Char → Caps → List Char) (s : String) :
    String :=
  String.mk (replaceGlobalAux re f s.data.length s.data)

/-- Group text for replacement expansion: an unmatched group yields "". -/
def capText (n : Nat) (cs : Caps) : List Char :=
  (capLookup n cs).getD []

/-- JavaScript replacement-pattern expansion for `String.replace(re, string)`:
`$$`, `$&`, the backquote and quote forms, and `$n`/`$nn` group inserts.
`gc` is the number of groups of the pattern; an out-of-range `$n` stays
literal, exactly as in JavaScript. -/
def expandDollar (gc : Nat) (matched before after : List Char) (cs : Caps) :
    List Char → List Char
  | [] => []
  | '$' :: '$' :: r => '$' :: expandDollar gc matched before after cs r
  | '$' :: '&' :: r => matched ++ expandDollar gc matched before after cs r
  | '$' :: '\x60' :: r => before ++ expandDollar gc matched before after cs r
  | '$' :: '\x27' :: r => after ++ expandDollar gc matched before after cs r
  | '$' :: c :: r =>
    if c.isDigit then
      match r with
      | c2 :: r2 =>
        if c2.isDigit then
          let n2 := (c.toNat - 48) * 10 + (c2.toNat - 48)
          if 1 ≤ n2 && n2 ≤ gc then
            capText n2 cs ++ expandDollar gc matched before after cs r2
          else
            let n1 := c.toNat - 48
            if 1 ≤ n1 && n1 ≤ gc then
              capText n1 cs ++ expandDollar gc matched before after cs (c2 :: r2)
            else '$' :: c :: expandDollar gc matched before after cs (c2 :: r2)
        else
          let n1 := c.toNat - 48
          if 1 ≤ n1 && n1 ≤ gc then
            capText n1 cs ++ expandDollar gc matched before after cs (c2 :: r2)
          else '$' :: c :: expandDollar gc matched before after cs (c2 :: r2)
      | [] =>
        let n1 := c.toNat - 48
        if 1 ≤ n1 && n1 ≤ gc then capText n1 cs
        else ['$', c]
    else '$' :: c :: expandDollar gc matched before after cs r
  | c :: r => c :: expandDollar gc matched before after cs r

/-- Non-global `s.replace(re, template)` where `template` is a plain string
subject to replacement-pattern expansion. -/
def jsReplaceTemplate (re : RE) (gc : Nat) (tmpl : String) (s : String) :
    String :=
  match searchAux re s.data 0 with
  | none => s
  | some (i, len, cs) =>
    let before := s.data.take i
    let matched := sliceOf s.data i len
    let after := s.data.drop (i + len)
    String.mk (before ++ expandDollar gc matched before after cs tmpl.data ++ after)

/-- Global `s.replace(re, template)` with replacement-pattern expansion. -/
def jsReplaceTemplateGlobalAux (re : RE) (gc : Nat) (tmpl : List Char) :
    Nat → List Char → List Char
  | 0, s => s
  | fuel + 1, s =>
    match searchAux re s 0 with
    | none => s
    | some (i, len, cs) =>
      if len = 0 then s
      else
        let before := s.take i
        let matched := sliceOf s i len
        let after := s.drop (i + len)
        before ++ expandDollar gc matched before after cs tmpl ++
          jsReplaceTemplateGlobalAux re gc tmpl fuel after

def jsReplaceTemplateGlobal (re : RE) (gc : Nat) (tmpl : String) (s : String) :
    String :=
  String.mk (jsReplaceTemplateGlobalAux re gc tmpl.data s.data.length s.data)

end TwigFmt

namespace TwigFmt

/-! ### Transliterations of the regular expressions of `extension.js` -/

def rlit (s : String) : RE := .lit s.data
def rseq (l : List RE) : RE := l.foldr .seq .eps

def ralts : List RE → RE
  | [] => .eps
  | [r] => r
  | r :: rs => .alt r (ralts rs)

/-- Greedy `p*`. -/
def rstar (p : Char → Bool) : RE := .star p false
/-- Lazy `p*?`. -/
def rstarL (p : Char → Bool) : RE := .star p true
/-- Greedy `p+`. -/
def rplus (p : Char → Bool) : RE := .seq (.cls p) (.star p false)
/-- Lazy `p+?`. -/
def rplusL (p : Char → Bool) : RE := .seq (.cls p) (.star p true)
/-- Case-insensitive literal (for the `/i` regexes). -/
def ilit (s : String) : RE :=
  rseq (s.data.map (fun c => RE.cls (fun x => x.toLower = c.toLower)))

/-- `[\w\-]` -/
def wdC (c : Char) : Bool := jsWord c || c = '-'
/-- `[^>]` -/
def notGtC (c : Char) : Bool := c ≠ '>'
/-- `['"]` -/
def quoteC (c : Char) : Bool := c = '\x22' || c = '\x27'
/-- `[^'"]` -/
def notQuoteC (c : Char) : Bool := c ≠ '\x22' && c ≠ '\x27'
/-- `[a-zA-Z\-]` -/
def alphaDashC (c : Char) : Bool := c.isAlpha || c = '-'
/-- `[a-zA-Z0-9-]` -/
def alnumDashC (c : Char) : Bool := c.isAlphanum || c = '-'
/-- `[^\x7b%]` (the source's `[^\{\{%]`, whose class lists `\{` twice). -/
def notBracePctC (c : Char) : Bool := c ≠ '\x7b' && c ≠ '%'
/-- `[\x7b%]` -/
def braceOrPctC (c : Char) : Bool := c = '\x7b' || c = '%'
/-- `[^<>]` -/
def notAngleC (c : Char) : Bool := c ≠ '<' && c ≠ '>'

/-- `/<[\w\-]+[^>]*(class|style|[a-zA-Z\-]+)=([\'"])([^\'"]*({%|{{)[^\'"]*)$/`
(the multi-line-attribute start detector, line 130 of the source). -/
def reAttrStart : RE := rseq [
  rlit "<", rplus wdC, rstar notGtC,
  .grp 1 (.alt (rlit "class") (.alt (rlit "style") (rplus alphaDashC))),
  rlit "=",
  .grp 2 (.cls quoteC),
  .grp 3 (rseq [rstar notQuoteC,
    .grp 4 (.alt (rlit "\x7b%") (rlit "\x7b\x7b")),
    rstar notQuoteC]),
  .eol]

/-- `/<[\w\-]+[^>]*=[\'"][^\'"]*({%|{{)[^\'"]*[\'"][^>]*>/`
(the single-line attribute-with-Twig detector, line 139). -/
def reSingleAttr : RE := rseq [
  rlit "<", rplus wdC, rstar notGtC, rlit "=", .cls quoteC, rstar notQuoteC,
  .grp 1 (.alt (rlit "\x7b%") (rlit "\x7b\x7b")), rstar notQuoteC, .cls quoteC,
  rstar notGtC, rlit ">"]

/-- `/\{%\s*verbatim\s*%\}/` -/
def reVerbatimOpen : RE :=
  rseq [rlit "\x7b%", rstar jsWs, rlit "verbatim", rstar jsWs, rlit "%\x7d"]

/-- `/\{%\s*endverbatim\s*%\}/` -/
def reVerbatimClose : RE :=
  rseq [rlit "\x7b%", rstar jsWs, rlit "endverbatim", rstar jsWs, rlit "%\x7d"]

/-- `/<script[^>]*>/i` -/
def reScriptOpen : RE := rseq [rlit "<", ilit "script", rstar notGtC, rlit ">"]
/-- `/<\/script>/i` -/
def reScriptClose : RE := rseq [rlit "</", ilit "script", rlit ">"]
/-- `/<style[^>]*>/i` -/
def reStyleOpen : RE := rseq [rlit "<", ilit "style", rstar notGtC, rlit ">"]
/-- `/<\/style>/i` -/
def reStyleClose : RE := rseq [rlit "</", ilit "style", rlit ">"]

/-- `/(\{\%.*?\%\}|\{\{.*?\}\})/` (the Tag Splitter's span matcher). -/
def reTwigSpan : RE :=
  .alt (rseq [rlit "\x7b%", rstarL jsDot, rlit "%\x7d"])
       (rseq [rlit "\x7b\x7b", rstarL jsDot, rlit "\x7d\x7d"])

/-- `\{%-?\s*kw\s+` -/
def reTagKw (kw : String) : RE :=
  rseq [rlit "\x7b%", .opt (rlit "-"), rstar jsWs, rlit kw, rplus jsWs]
/-- `\{%-?\s*kw\s*%\}` -/
def reTagBare (kw : String) : RE :=
  rseq [rlit "\x7b%", .opt (rlit "-"), rstar jsWs, rlit kw, rstar jsWs, rlit "%\x7d"]
/-- `\{%-?\s*kw\s*-?%\}` -/
def reTagClose (kw : String) : RE :=
  rseq [rlit "\x7b%", .opt (rlit "-"), rstar jsWs, rlit kw, rstar jsWs,
    .opt (rlit "-"), rlit "%\x7d"]

/-- The pattern list of `isOpeningTag`. -/
def openingTags : List RE :=
  [reTagKw "block", reTagKw "for", reTagKw "if", reTagKw "macro",
   reTagKw "embed", reTagKw "autoescape", reTagBare "spaceless",
   reTagBare "trans", reTagKw "apply", reTagKw "cache", reTagBare "sandbox",
   reTagKw "with", reTagBare "verbatim"]

/-- `/^\{%-?\s*set\s+.+%\}$/` (tested with `^...$` anchoring). -/
def reSingleLineSet : RE :=
  rseq [rlit "\x7b%", .opt (rlit "-"), rstar jsWs, rlit "set", rplus jsWs,
    rplus jsDot, rlit "%\x7d", .eol]

/-- Patterns for `else` / `elseif` (written twice in the source, with the same
text, in `closingTags` and in `midBlockTags`). -/
def reElse : RE := reTagClose "else"
def reElseif : RE := reTagKw "elseif"

/-- The pattern list of `isClosingTag`. -/
def closingTags : List RE :=
  [reTagClose "endblock", reTagClose "endfor", reTagClose "endif",
   reTagClose "endmacro", reTagClose "endset", reTagClose "endembed",
   reTagClose "endautoescape", reTagClose "endspaceless", reTagClose "endtrans",
   reTagClose "endapply", reTagClose "endcache", reTagClose "endsandbox",
   reTagClose "endwith", reTagClose "endverbatim", reElse, reElseif]

/-- The pattern list of `isSelfClosingTag`. -/
def selfClosingTags : List RE :=
  [reTagKw "include", reTagKw "import", reTagKw "from", reTagKw "use",
   reTagKw "extends", reTagKw "do", reTagClose "flush", reTagKw "deprecated"]

/-- The pattern list of `isMidBlockTag`. -/
def midBlockTags : List RE := [reElse, reElseif]

/-- `/\{%-?\s*(if|for|block|macro|embed|autoescape|apply|cache|sandbox|with)\s+.*%\}\s*\{%-?\s*end\1\s*-?%\}/` -/
def reSingleLineBlock : RE := rseq [
  rlit "\x7b%", .opt (rlit "-"), rstar jsWs,
  .grp 1 (ralts [rlit "if", rlit "for", rlit "block", rlit "macro",
    rlit "embed", rlit "autoescape", rlit "apply", rlit "cache",
    rlit "sandbox", rlit "with"]),
  rplus jsWs, rstar jsDot, rlit "%\x7d", rstar jsWs,
  rlit "\x7b%", .opt (rlit "-"), rstar jsWs, rlit "end", .bref 1,
  rstar jsWs, .opt (rlit "-"), rlit "%\x7d"]

/-- `/[a-zA-Z0-9-]+=(["']).*\{[{%].*\1/` -/
def reTwigInsideAttr : RE := rseq [
  rplus alnumDashC, rlit "=", .grp 1 (.cls quoteC), rstar jsDot,
  rlit "\x7b", .cls braceOrPctC, rstar jsDot, .bref 1]

/-- `/<[a-zA-Z][a-zA-Z0-9]*(\s[^<>]*)?>/` -/
def reHtmlOpen : RE := rseq [
  rlit "<", .cls Char.isAlpha, rstar Char.isAlphanum,
  .opt (.grp 1 (rseq [.cls jsWs, rstar notAngleC])), rlit ">"]

/-- `/<\/[a-zA-Z][a-zA-Z0-9]*>/` -/
def reHtmlClose : RE :=
  rseq [rlit "</", .cls Char.isAlpha, rstar Char.isAlphanum, rlit ">"]

/-- `/<(area|base|br|col|embed|hr|img|input|link|meta|param|source|track|wbr)(\s[^>]*)?\/?>$/i` -/
def reHtmlSelfClose : RE := rseq [
  rlit "<",
  .grp 1 (ralts [ilit "area", ilit "base", ilit "br", ilit "col", ilit "embed",
    ilit "hr", ilit "img", ilit "input", ilit "link", ilit "meta",
    ilit "param", ilit "source", ilit "track", ilit "wbr"]),
  .opt (.grp 2 (rseq [.cls jsWs, rstar notGtC])),
  .opt (rlit "/"), rlit ">", .eol]

/-- `/\s*\n\s*/` (newline collapsing in `collapseTwigAttribute`). -/
def reNlWs : RE := rseq [rstar jsWs, rlit "\n", rstar jsWs]
/-- `/\s{2,}/` -/
def reMultiSpace : RE := rseq [.cls jsWs, .cls jsWs, rstar jsWs]
/-- `/({%|{{)/` -/
def reTwigDelim : RE := .grp 1 (.alt (rlit "\x7b%") (rlit "\x7b\x7b"))
/-- `/=\s*([\'"])(.*)\1/` -/
def reAttrValue : RE := rseq [
  rlit "=", rstar jsWs, .grp 1 (.cls quoteC), .grp 2 (rstar jsDot), .bref 1]
/-- `/([^\x7b\x7b%]+?)\s*({[{%])/`, used `^`-anchored on the main path and
unanchored on the fallback path. -/
def reBeforeTwig : RE := rseq [
  .grp 1 (rplusL notBracePctC), rstar jsWs,
  .grp 2 (rseq [rlit "\x7b", .cls braceOrPctC])]
/-- `/(%}|}})\s*$/` -/
def reAfterTwig : RE :=
  rseq [.grp 1 (.alt (rlit "%\x7d") (rlit "\x7d\x7d")), rstar jsWs, .eol]
/-- `/(%}|}})\s*([\'"])/` (fallback path, used globally with template `$1 $2`). -/
def reCloseQuote : RE := rseq [
  .grp 1 (.alt (rlit "%\x7d") (rlit "\x7d\x7d")), rstar jsWs,
  .grp 2 (.cls quoteC)]

/-- `text.split('\n')`: split on newline characters, keeping empty pieces
(`"".split('\n')` is `[""]`, as in JavaScript). -/
def splitNlAux : List Char → List Char → List String
  | [], acc => [String.mk acc.reverse]
  | c :: r, acc =>
    if c = '\n' then String.mk acc.reverse :: splitNlAux r []
    else splitNlAux r (c :: acc)

def jsSplitNl (s : String) : List String := splitNlAux s.data []

/-- `str.endsWith(sub)`. -/
def jsEndsWith (s sub : String) : Bool :=
  sub.data.reverse.isPrefixOf s.data.reverse

/-- substring test on char lists. -/
def hasSubAux (sub : List Char) : List Char → Bool
  | [] => sub.isPrefixOf []
  | c :: r => sub.isPrefixOf (c :: r) || hasSubAux sub r

/-- substring test (`String.prototype.includes`). -/
def hasSub (sub s : String) : Bool := hasSubAux sub.data s.data

end TwigFmt

namespace TwigFmt

/-! ### The `TwigFormatter` helpers -/

/-- `TwigFormatter.isOpeningTag`. -/
def isOpeningTag (line : String) : Bool :=
  if (matchAt reSingleLineSet line.data).isSome then false
  else openingTags.any (fun re => reTest re line)

/-- `TwigFormatter.isClosingTag`. -/
def isClosingTag (line : String) : Bool :=
  closingTags.any (fun re => reTest re line)

/-- `TwigFormatter.isSelfClosingTag`. -/
def isSelfClosingTag (line : String) : Bool :=
  selfClosingTags.any (fun re => reTest re line)

/-- `TwigFormatter.isMidBlockTag`. -/
def isMidBlockTag (line : String) : Bool :=
  midBlockTags.any (fun re => reTest re line)

/-- `TwigFormatter.isSingleLineBlock`. -/
def isSingleLineBlock (line : String) : Bool :=
  reTest reSingleLineBlock line

/-- `TwigFormatter.isTwigInsideAttribute`. -/
def isTwigInsideAttribute (line : String) : Bool :=
  reTest reTwigInsideAttr line

/-- `TwigFormatter.isHtmlOpeningTag`. -/
def isHtmlOpeningTag (line : String) : Bool := reTest reHtmlOpen line

/-- `TwigFormatter.isHtmlClosingTag`. -/
def isHtmlClosingTag (line : String) : Bool := reTest reHtmlClose line

/-- `TwigFormatter.isHtmlSelfClosingTag`. -/
def isHtmlSelfClosingTag (line : String) : Bool :=
  let trimmed := jsTrim line
  reTest reHtmlSelfClose trimmed || jsEndsWith trimmed "/>"

/-- `TwigFormatter.shouldDecreaseHtmlIndent`. -/
def shouldDecreaseHtmlIndent (line : String) (isCompleteTag : Bool) : Bool :=
  !isCompleteTag && isHtmlClosingTag line && !isHtmlSelfClosingTag line

/-- `TwigFormatter.shouldIncreaseHtmlIndent`. -/
def shouldIncreaseHtmlIndent (line : String) (isCompleteTag : Bool) : Bool :=
  !isCompleteTag && isHtmlOpeningTag line && !isHtmlSelfClosingTag line &&
    !isHtmlClosingTag line

/-- `TwigFormatter.collapseTwigAttribute`. -/
def collapseTwigAttribute (attributeLines : List String) : String :=
  let collapsed := String.intercalate " " attributeLines
  let collapsed := replaceGlobal reNlWs (fun _ _ => [' ']) collapsed
  let collapsed := replaceGlobal reMultiSpace (fun _ _ => [' ']) collapsed
  let collapsed :=
    if reTest reTwigDelim collapsed then
      match reSearch reAttrValue collapsed with
      | some (_, _, cs) =>
        let quote := String.mk (capText 1 cs)
        let attrValue0 := capText 2 cs
        let v1 := replaceAtStart reBeforeTwig
          (fun _ cs2 => trimList (capText 1 cs2) ++ (' ' :: capText 2 cs2))
          attrValue0
        let v2 := replaceFirst reAfterTwig
          (fun _ cs2 => capText 1 cs2 ++ [' ']) v1
        let v3 := jsTrim (replaceGlobal reMultiSpace (fun _ _ => [' '])
          (String.mk v2))
        jsReplaceTemplate reAttrValue 2 ("=" ++ quote ++ v3 ++ quote) collapsed
      | none =>
        let c1 := String.mk (replaceFirst reBeforeTwig
          (fun _ cs2 => trimList (capText 1 cs2) ++ (' ' :: capText 2 cs2))
          collapsed.data)
        let c2 := jsReplaceTemplateGlobal reCloseQuote 2 "$1 $2" c1
        replaceGlobal reMultiSpace (fun _ _ => [' ']) c2
    else collapsed
  jsTrim collapsed

/-- The splitting loop of `TwigFormatter.splitTwigLine` (the `re.exec` loop);
fuel bounds the iteration count, and every Twig span is at least four
characters long, so `length + 1` fuel is never exhausted. -/
def twigSplitAux : Nat → List Char → List (List Char)
  | 0, s => if s.isEmpty then [] else [s]
  | fuel + 1, s =>
    match searchAux reTwigSpan s 0 with
    | none => if s.isEmpty then [] else [s]
    | some (i, len, _) =>
      if len = 0 then if s.isEmpty then [] else [s]
      else
        (if i = 0 then [] else [s.take i]) ++ [sliceOf s i len] ++
          twigSplitAux fuel (s.drop (i + len))

/-- `TwigFormatter.splitTwigLine`. -/
def splitTwigLine (line : String) : List String :=
  ((twigSplitAux (line.data.length + 1) line.data).map String.mk).filter
    (fun s => (jsTrim s).length > 0)

/-! ### The `format` state machine -/

/-- The configuration fields of `TwigFormatter` (constructor defaults of the
source: `indentSize = 4`, `useTabs = false`, `preserveNewLines = true`). -/
structure Config where
  indentSize : Nat := 4
  useTabs : Bool := false
  preserveNewLines : Bool := true

def defaultConfig : Config := {}

/-- `indentChar` of `format`. -/
def indentChar (cfg : Config) : String :=
  if cfg.useTabs then "\t" else String.mk (List.replicate cfg.indentSize ' ')

/-- `indentChar.repeat n` (on the always non-negative depth sum). -/
def indentStr (cfg : Config) (n : Int) : String :=
  String.join (List.replicate n.toNat (indentChar cfg))

/-- The local mutable variables of one `format` invocation.  Depths are
modelled as integers, with the source's `Math.max(0, _)` clamps kept
explicit, so that non-negativity is a theorem rather than a typing artifact. -/
structure FormatterState where
  twigIndentLevel : Int := 0
  htmlIndentLevel : Int := 0
  inComment : Bool := false
  inVerbatim : Bool := false
  inScriptTag : Bool := false
  inStyleTag : Bool := false
  scriptTagBaseIndent : Int := 0
  styleTagBaseIndent : Int := 0
  insideTwigAttribute : Bool := false
  attributeQuote : Option Char := none
  attributeLines : List String := []
  formattedLines : List String := []
deriving DecidableEq

def initialState : FormatterState := {}

/-- Net brace/bracket change of a line inside a script/style region:
`(#'\x7b' + #'[') - (#'\x7d' + #']')`. -/
def lineNet (trimmed : String) : Int :=
  ((countChar '\x7b' trimmed + countChar '[' trimmed : Nat) : Int) -
  ((countChar '\x7d' trimmed + countChar ']' trimmed : Nat) : Int)

/-- The body of the per-run loop of `format` (lines 273–312 of the source). -/
def processItem (cfg : Config) (st : FormatterState) (piece : String) :
    FormatterState :=
  let item := jsTrim piece
  let isCompleteTag := isHtmlOpeningTag item && isHtmlClosingTag item
  if isTwigInsideAttribute item then
    { st with formattedLines := st.formattedLines ++
        [indentStr cfg (st.twigIndentLevel + st.htmlIndentLevel) ++ item] }
  else
    let h1 : Int :=
      if shouldDecreaseHtmlIndent item isCompleteTag then
        max 0 (st.htmlIndentLevel - 1)
      else st.htmlIndentLevel
    let t1 : Int :=
      if isClosingTag item then max 0 (st.twigIndentLevel - 1)
      else st.twigIndentLevel
    let out1 := st.formattedLines ++ [indentStr cfg (t1 + h1) ++ item]
    let t2 : Int :=
      if isOpeningTag item && !isSelfClosingTag item && !isSingleLineBlock item
      then t1 + 1 else t1
    let t3 : Int := if isMidBlockTag item then t2 + 1 else t2
    let h2 : Int := if shouldIncreaseHtmlIndent item isCompleteTag then h1 + 1 else h1
    { st with
      twigIndentLevel := t3, htmlIndentLevel := h2, formattedLines := out1 }

/-- Rule 1 of the per-line dispatch (lines 113–127 of the source):
continuation of a buffered multi-line attribute.  The line is buffered; if
the count of the recorded quote character over the buffer is even, the value
is closed: collapse, emit one indented line, reset. -/
def attrContinuationStep (cfg : Config) (st : FormatterState) (line : String) :
    FormatterState :=
  let attributeLines := st.attributeLines ++ [line]
  let q := st.attributeQuote.getD '\x22'
  let quoteCount := countChar q (String.intercalate "\n" attributeLines)
  if quoteCount % 2 = 0 then
    { st with
      formattedLines := st.formattedLines ++
        [indentStr cfg (st.twigIndentLevel + st.htmlIndentLevel) ++
          collapseTwigAttribute attributeLines],
      insideTwigAttribute := false, attributeLines := [],
      attributeQuote := none }
  else { st with attributeLines := attributeLines }

/-- Rule 2 (lines 129–136): a matching attribute-start line enters the
`InAttribute` mode, recording the quote character (capture group 2). -/
def attrStartState (st : FormatterState) (line : String) (cs : Caps) :
    FormatterState :=
  { st with
    insideTwigAttribute := true,
    attributeQuote := (capText 2 cs).head?,
    attributeLines := [line] }

/-- Rule 3 (lines 138–144): a single-line attribute with Twig is collapsed
and emitted immediately. -/
def singleAttrStep (cfg : Config) (st : FormatterState) (line : String) :
    FormatterState :=
  { st with formattedLines := st.formattedLines ++
      [indentStr cfg (st.twigIndentLevel + st.htmlIndentLevel) ++
        collapseTwigAttribute [line]] }

/-- Rule 9 (lines 240–268): brace/bracket counting inside a script or style
region.  A net decrease is applied (clamped at zero) before the line is
emitted; a net increase is applied after. -/
def scriptBodyStep (cfg : Config) (st : FormatterState) (trimmedLine : String) :
    FormatterState :=
  let netChange := lineNet trimmedLine
  let h1 : Int :=
    if netChange < 0 then max 0 (st.htmlIndentLevel + netChange)
    else st.htmlIndentLevel
  let st1 := { st with
    htmlIndentLevel := h1,
    formattedLines := st.formattedLines ++
      [indentStr cfg (st.twigIndentLevel + h1) ++ trimmedLine] }
  if netChange > 0 then
    { st1 with htmlIndentLevel := st1.htmlIndentLevel + netChange }
  else st1

/-- Rules 7–10 (lines 186–312): script/style region handling and, when no
region rule fires, the per-run normal path. -/
def scriptStyleDispatch (cfg : Config) (st : FormatterState)
    (line trimmedLine : String) : FormatterState :=
  let isScriptOpening :=
    reTest reScriptOpen trimmedLine && !reTest reScriptClose trimmedLine
  let isScriptClosing := reTest reScriptClose trimmedLine
  let isStyleOpening :=
    reTest reStyleOpen trimmedLine && !reTest reStyleClose trimmedLine
  let isStyleClosing := reTest reStyleClose trimmedLine
  if isScriptOpening then
    { st with
      formattedLines := st.formattedLines ++
        [indentStr cfg (st.twigIndentLevel + st.htmlIndentLevel) ++
          trimmedLine],
      inScriptTag := true,
      scriptTagBaseIndent := st.htmlIndentLevel,
      htmlIndentLevel := st.htmlIndentLevel + 1 }
  else if isStyleOpening then
    { st with
      formattedLines := st.formattedLines ++
        [indentStr cfg (st.twigIndentLevel + st.htmlIndentLevel) ++
          trimmedLine],
      inStyleTag := true,
      styleTagBaseIndent := st.htmlIndentLevel,
      htmlIndentLevel := st.htmlIndentLevel + 1 }
  else if isScriptClosing then
    { st with
      htmlIndentLevel := st.scriptTagBaseIndent,
      inScriptTag := false,
      formattedLines := st.formattedLines ++
        [indentStr cfg (st.twigIndentLevel + st.scriptTagBaseIndent) ++
          trimmedLine] }
  else if isStyleClosing then
    { st with
      htmlIndentLevel := st.styleTagBaseIndent,
      inStyleTag := false,
      formattedLines := st.formattedLines ++
        [indentStr cfg (st.twigIndentLevel + st.styleTagBaseIndent) ++
          trimmedLine] }
  else if st.inScriptTag || st.inStyleTag then
    scriptBodyStep cfg st trimmedLine
  else
    (splitTwigLine line).foldl (processItem cfg) st

/-- Rules 5–10 (lines 160–312): comment regions, verbatim regions, then the
script/style dispatch.  The source sets `inComment` (resp. `inVerbatim`)
before testing it, which the `let` bindings reproduce. -/
def regionDispatch (cfg : Config) (st : FormatterState)
    (line trimmedLine : String) : FormatterState :=
  let inComment1 := if hasSub "\x7b#" trimmedLine then true else st.inComment
  if inComment1 then
    { st with
      inComment := if hasSub "#\x7d" trimmedLine then false else true,
      formattedLines := st.formattedLines ++
        [indentStr cfg (st.twigIndentLevel + st.htmlIndentLevel) ++
          trimmedLine] }
  else
    let inVerbatim1 :=
      if reTest reVerbatimOpen trimmedLine then true else st.inVerbatim
    if inVerbatim1 then
      { st with
        inVerbatim := if reTest reVerbatimClose trimmedLine then false
          else true,
        formattedLines := st.formattedLines ++
          [indentStr cfg (st.twigIndentLevel + st.htmlIndentLevel) ++
            trimmedLine] }
    else scriptStyleDispatch cfg st line trimmedLine

/-- The body of the per-line loop of `format` (lines 106–313 of the source),
with the same rule order and short-circuiting (`continue`) structure. -/
def processLine (cfg : Config) (st : FormatterState) (line : String) :
    FormatterState :=
  let trimmedLine := jsTrim line
  if st.insideTwigAttribute then attrContinuationStep cfg st line
  else
    match reSearch reAttrStart line with
    | some (_, _, cs) => attrStartState st line cs
    | none =>
      if reTest reSingleAttr line then singleAttrStep cfg st line
      else if trimmedLine = "" && cfg.preserveNewLines then
        { st with formattedLines := st.formattedLines ++ [""] }
      else if trimmedLine = "" then st
      else regionDispatch cfg st line trimmedLine

/-- Fold of `processLine` over a list of lines. -/
def procLines (cfg : Config) (st : FormatterState) (lines : List String) :
    FormatterState :=
  lines.foldl (processLine cfg) st

/-- `TwigFormatter.format`. -/
def format (cfg : Config) (text : String) : String :=
  String.intercalate "\n"
    ((procLines cfg initialState (jsSplitNl text)).formattedLines)

end TwigFmt

namespace TwigFmt

/-! ### Derived notions used by the verification statements -/

/-- Number of lines of a text (split on newlines, as `format` does). -/
def countLines (s : String) : Nat := (jsSplitNl s).length

/-- None of the five region/mode flags of a state is set. -/
def flagsClear (st : FormatterState) : Prop :=
  st.inComment = false ∧ st.inVerbatim = false ∧ st.inScriptTag = false ∧
    st.inStyleTag = false ∧ st.insideTwigAttribute = false

/-- Number of set mode flags of a state. -/
def flagCount (st : FormatterState) : Nat :=
  (cond st.inComment 1 0) + (cond st.inVerbatim 1 0) +
    (cond st.inScriptTag 1 0) + (cond st.inStyleTag 1 0) +
    (cond st.insideTwigAttribute 1 0)

/-- The depth counters and the saved base depths are non-negative. -/
def depthInv (st : FormatterState) : Prop :=
  0 ≤ st.twigIndentLevel ∧ 0 ≤ st.htmlIndentLevel ∧
    0 ≤ st.scriptTagBaseIndent ∧ 0 ≤ st.styleTagBaseIndent

/-- A line on which none of the attribute, blank, comment, verbatim, or
script/style open/close rules of the per-line dispatch fires: inside a
script/style region such a line is handled by the brace-counting rule, and
otherwise by the per-run normal path. -/
def scriptBodyLine (line : String) : Prop :=
  reSearch reAttrStart line = none ∧ reTest reSingleAttr line = false ∧
    jsTrim line ≠ "" ∧ hasSub "\x7b#" (jsTrim line) = false ∧
    reTest reVerbatimOpen (jsTrim line) = false ∧
    reTest reScriptOpen (jsTrim line) = false ∧
    reTest reScriptClose (jsTrim line) = false ∧
    reTest reStyleOpen (jsTrim line) = false ∧
    reTest reStyleClose (jsTrim line) = false

instance (st : FormatterState) : Decidable (flagsClear st) := by
  unfold flagsClear; infer_instance

instance (st : FormatterState) : Decidable (depthInv st) := by
  unfold depthInv; infer_instance

instance (line : String) : Decidable (scriptBodyLine line) := by
  unfold scriptBodyLine; infer_instance

/-- Sum of the entries `l[a], …, l[b-1]` of a list of integers. -/
def sumRange (l : List Int) (a b : Nat) : Int := ((l.drop a).take (b - a)).sum

/-- Depth after a script/style-region line of net change `net`, starting from
depth `h` (rule 9): a net decrease is applied clamped at zero, a net increase
is applied in full, and the depth at which the line itself is emitted is
`if net < 0 then max 0 (h + net) else h`. -/
def scriptStepDepth (h net : Int) : Int :=
  if net < 0 then max 0 (h + net) else if 0 < net then h + net else h

end TwigFmt

namespace TwigFmt

/-! ### Concrete evaluations settling the per-scenario claims -/

/-- Claim C1: `format` is **not** idempotent, contradicting the specified
property; this is a slip in the code.  For the well-formed input
`<div class="a$1 {{ b }}">`, the attribute rebuild
`collapsed.replace(regex, template)` interpolates the attribute value into a
replacement string, so the `$1` inside the value is expanded by
`String.replace` to capture group 1 (the quote character).  The first pass
turns the line into `<div class="a" {{ b }}">`; the second pass no longer
sees a Twig attribute and splits the line into three runs. -/
theorem format_not_idempotent_dollar_pattern :
    format defaultConfig "<div class=\x22a$1 \x7b\x7b b \x7d\x7d\x22>" =
      "<div class=\x22a\x22 \x7b\x7b b \x7d\x7d\x22>" ∧
    format defaultConfig
        (format defaultConfig "<div class=\x22a$1 \x7b\x7b b \x7d\x7d\x22>") =
      "<div class=\x22a\x22\n\x7b\x7b b \x7d\x7d\n\x22>" ∧
    format defaultConfig
        (format defaultConfig "<div class=\x22a$1 \x7b\x7b b \x7d\x7d\x22>") ≠
      format defaultConfig "<div class=\x22a$1 \x7b\x7b b \x7d\x7d\x22>" := by
  refine ⟨by decide, by decide, by decide⟩

/-- Claim C2 (counterexample): with `preserveBlankLines = true`, the output
line count does **not** always equal the input line count even without any
multi-line attribute collapse: the single input line `{{ a }} b` is split
into two runs, each emitted as its own output line. -/
theorem line_count_not_preserved_run_split :
    format defaultConfig "\x7b\x7b a \x7d\x7d b" = "\x7b\x7b a \x7d\x7d\nb" ∧
    countLines (format defaultConfig "\x7b\x7b a \x7d\x7d b") ≠
      countLines "\x7b\x7b a \x7d\x7d b" := by
  refine ⟨by decide, by decide⟩

/-- Claim C3 (counterexample): the input `{% if x %}y{% endif %}` does
**not** produce exactly one output line: the Tag Splitter splits it into
three runs before `isSingleLineBlock` is ever consulted, and each run is
emitted as its own line. -/
theorem single_line_block_not_one_line :
    countLines (format defaultConfig "\x7b% if x %\x7dy\x7b% endif %\x7d") ≠ 1 := by
  decide

/-- Claim C3 (amended): the input `{% if x %}y{% endif %}` produces three
output lines — the opener and the closer at the surrounding indent and the
body one level deeper — and the net `templateDepth` change across the line
is zero. -/
theorem single_line_block_three_lines_net_zero :
    format defaultConfig "\x7b% if x %\x7dy\x7b% endif %\x7d" =
      "\x7b% if x %\x7d\n    y\n\x7b% endif %\x7d" ∧
    (procLines defaultConfig initialState
        (jsSplitNl "\x7b% if x %\x7dy\x7b% endif %\x7d")).twigIndentLevel =
      initialState.twigIndentLevel := by
  refine ⟨by decide, by decide⟩

/-- Claim C4 (counterexample): for the two-line input `<div` /
`  class="a {{ b }} c">` the formatter does **not** recognize a multi-line
attribute — the detector regex requires the tag name and the attribute on
the same line — so nothing is collapsed; the second line is split into three
runs and four lines are emitted. -/
theorem attr_tag_on_own_line_not_collapsed :
    format defaultConfig "<div\n  class=\x22a \x7b\x7b b \x7d\x7d c\x22>" =
      "<div\nclass=\x22a\n\x7b\x7b b \x7d\x7d\nc\x22>" ∧
    format defaultConfig "<div\n  class=\x22a \x7b\x7b b \x7d\x7d c\x22>" ≠
      "<div class=\x22a \x7b\x7b b \x7d\x7d c\x22>" := by
  refine ⟨by decide, by decide⟩

/-- Claim C4 (amended): when the tag-start and the opening of the attribute
value are on the same line — two-line input `<div class="a {{ b }}` /
` c">` — the formatter buffers the attribute and emits the single collapsed
line `<div class="a {{ b }} c">`, with exactly one space before the
template-open and one space after the template-close delimiter. -/
theorem attr_same_line_start_collapses :
    format defaultConfig "<div class=\x22a \x7b\x7b b \x7d\x7d\n c\x22>" =
      "<div class=\x22a \x7b\x7b b \x7d\x7d c\x22>" := by
  decide

/-- Claim C8 (counterexample): the mode flags are **not** mutually exclusive
for every input: processing `<script>` and then `<style>` leaves both
`inScriptTag` and `inStyleTag` set, because the style-opening rule does not
check that a script region is already open. -/
theorem script_style_flags_coexist :
    (procLines defaultConfig initialState ["<script>", "<style>"]).inScriptTag
        = true ∧
    (procLines defaultConfig initialState ["<script>", "<style>"]).inStyleTag
        = true ∧
    flagCount (procLines defaultConfig initialState ["<script>", "<style>"])
        = 2 := by
  refine ⟨by decide, by decide, by decide⟩

/-- Claim C6 (counterexample): a Run that is a mid-block tag but also matches
the template-expression-inside-attribute pattern — `{% elseif x="{%" %}` —
is emitted by the attribute-expression short-circuit at the **current**
depth, with no decrement before emission: after `{% if a %}` it is emitted
one level deep, not at the surrounding indent as the claim requires. -/
theorem midblock_inside_attribute_no_decrement :
    isMidBlockTag "\x7b% elseif x=\x22\x7b%\x22 %\x7d" = true ∧
    isTwigInsideAttribute "\x7b% elseif x=\x22\x7b%\x22 %\x7d" = true ∧
    format defaultConfig "\x7b% if a %\x7d\n\x7b% elseif x=\x22\x7b%\x22 %\x7d" =
      "\x7b% if a %\x7d\n    \x7b% elseif x=\x22\x7b%\x22 %\x7d" ∧
    ("    \x7b% elseif x=\x22\x7b%\x22 %\x7d" : String) ≠
      "\x7b% elseif x=\x22\x7b%\x22 %\x7d" := by
  refine ⟨by decide, by decide, by decide, by decide⟩

end TwigFmt

namespace TwigFmt

/-! ### Structural lemmas about the run loop and the per-line dispatch -/

/-- `processItem` never touches the mode flags, the saved base depths, or the
attribute buffer. -/
theorem processItem_preserves (cfg : Config) (st : FormatterState) (piece : String) :
    (processItem cfg st piece).inComment = st.inComment ∧
    (processItem cfg st piece).inVerbatim = st.inVerbatim ∧
    (processItem cfg st piece).inScriptTag = st.inScriptTag ∧
    (processItem cfg st piece).inStyleTag = st.inStyleTag ∧
    (processItem cfg st piece).insideTwigAttribute = st.insideTwigAttribute ∧
    (processItem cfg st piece).scriptTagBaseIndent = st.scriptTagBaseIndent ∧
    (processItem cfg st piece).styleTagBaseIndent = st.styleTagBaseIndent ∧
    (processItem cfg st piece).attributeQuote = st.attributeQuote ∧
    (processItem cfg st piece).attributeLines = st.attributeLines := by
  unfold processItem
  dsimp only
  split <;> simp

/-- `processItem` appends exactly one output line. -/
theorem processItem_out (cfg : Config) (st : FormatterState) (piece : String) :
    ∃ x, (processItem cfg st piece).formattedLines = st.formattedLines ++ [x] := by
  unfold processItem
  dsimp only
  split
  · exact ⟨_, rfl⟩
  · exact ⟨_, rfl⟩

/-- Every depth mutation of `processItem` is an increment or a decrement
clamped at zero, so non-negativity is preserved. -/
theorem processItem_depthInv (cfg : Config) (st : FormatterState) (piece : String)
    (h : depthInv st) : depthInv (processItem cfg st piece) := by
  obtain ⟨h1, h2, h3, h4⟩ := h
  unfold processItem depthInv
  dsimp only
  split
  · exact ⟨h1, h2, h3, h4⟩
  · refine ⟨?_, ?_, h3, h4⟩ <;> (split_ifs <;> dsimp only <;> omega)

theorem foldl_processItem_depthInv (cfg : Config) (l : List String)
    (st : FormatterState) (h : depthInv st) :
    depthInv (l.foldl (processItem cfg) st) := by
  induction l generalizing st with
  | nil => exact h
  | cons x xs ih => exact ih _ (processItem_depthInv cfg st x h)

/-- The run loop over a line appends one output line per run. -/
theorem foldl_processItem_out_length (cfg : Config) (l : List String)
    (st : FormatterState) :
    (l.foldl (processItem cfg) st).formattedLines.length =
      st.formattedLines.length + l.length := by
  induction l generalizing st with
  | nil => rfl
  | cons x xs ih =>
    obtain ⟨y, hy⟩ := processItem_out cfg st x
    rw [List.foldl_cons, ih, hy]
    simp
    omega

/-- The run loop never touches the mode flags. -/
theorem foldl_processItem_flags (cfg : Config) (l : List String)
    (st : FormatterState) :
    (l.foldl (processItem cfg) st).inComment = st.inComment ∧
    (l.foldl (processItem cfg) st).inVerbatim = st.inVerbatim ∧
    (l.foldl (processItem cfg) st).inScriptTag = st.inScriptTag ∧
    (l.foldl (processItem cfg) st).inStyleTag = st.inStyleTag ∧
    (l.foldl (processItem cfg) st).insideTwigAttribute = st.insideTwigAttribute := by
  induction l generalizing st with
  | nil => exact ⟨rfl, rfl, rfl, rfl, rfl⟩
  | cons x xs ih =>
    have h := processItem_preserves cfg st x
    have h2 := ih (processItem cfg st x)
    rw [List.foldl_cons]
    exact ⟨h2.1.trans h.1, h2.2.1.trans h.2.1, h2.2.2.1.trans h.2.2.1,
      h2.2.2.2.1.trans h.2.2.2.1, h2.2.2.2.2.trans h.2.2.2.2.1⟩

theorem scriptBodyStep_depthInv (cfg : Config) (st : FormatterState)
    (t : String) (h : depthInv st) : depthInv (scriptBodyStep cfg st t) := by
  obtain ⟨h1, h2, h3, h4⟩ := h
  unfold scriptBodyStep depthInv
  dsimp only
  refine ⟨?_, ?_, ?_, ?_⟩ <;> (split_ifs <;> dsimp only <;> omega)

theorem scriptStyleDispatch_depthInv (cfg : Config) (st : FormatterState)
    (line t : String) (h : depthInv st) :
    depthInv (scriptStyleDispatch cfg st line t) := by
  obtain ⟨h1, h2, h3, h4⟩ := h
  unfold scriptStyleDispatch
  dsimp only
  split_ifs <;>
    first
    | exact scriptBodyStep_depthInv cfg st t ⟨h1, h2, h3, h4⟩
    | exact foldl_processItem_depthInv cfg _ st ⟨h1, h2, h3, h4⟩
    | (refine ⟨?_, ?_, ?_, ?_⟩ <;> dsimp only <;> omega)

theorem regionDispatch_depthInv (cfg : Config) (st : FormatterState)
    (line t : String) (h : depthInv st) :
    depthInv (regionDispatch cfg st line t) := by
  obtain ⟨h1, h2, h3, h4⟩ := h
  unfold regionDispatch
  dsimp only
  split_ifs <;>
    first
    | exact scriptStyleDispatch_depthInv cfg st line t ⟨h1, h2, h3, h4⟩
    | exact ⟨h1, h2, h3, h4⟩

/-- Non-negativity of all four counters is preserved by every line. -/
theorem processLine_depthInv (cfg : Config) (st : FormatterState) (line : String)
    (h : depthInv st) : depthInv (processLine cfg st line) := by
  obtain ⟨h1, h2, h3, h4⟩ := h
  unfold processLine
  dsimp only
  split
  · unfold attrContinuationStep
    dsimp only
    split <;> exact ⟨h1, h2, h3, h4⟩
  · split
    · exact ⟨h1, h2, h3, h4⟩
    · split_ifs <;>
        first
        | exact regionDispatch_depthInv cfg st line _ ⟨h1, h2, h3, h4⟩
        | exact ⟨h1, h2, h3, h4⟩

/-- All intermediate per-line states of a run satisfy an invariant that the
initial state satisfies and every line preserves. -/
theorem scanl_processLine_inv (cfg : Config) (P : FormatterState → Prop)
    (hstep : ∀ st x, P st → P (processLine cfg st x)) :
    ∀ (l : List String) (b : FormatterState), P b →
      ∀ st ∈ l.scanl (processLine cfg) b, P st := by
  intro l
  induction l with
  | nil =>
    intro b hb st hst
    rw [List.scanl_nil, List.mem_singleton] at hst
    exact hst ▸ hb
  | cons x xs ih =>
    intro b hb st hst
    rw [List.scanl_cons] at hst
    rcases List.mem_append.mp hst with h | h
    · exact (List.mem_singleton.mp h) ▸ hb
    · exact ih (processLine cfg b x) (hstep b x hb) st h

end TwigFmt

namespace TwigFmt

/-! ### Mode-flag accounting -/

theorem foldl_processItem_flagCount (cfg : Config) (l : List String)
    (st : FormatterState) :
    flagCount (l.foldl (processItem cfg) st) = flagCount st := by
  have h := foldl_processItem_flags cfg l st
  unfold flagCount
  rw [h.1, h.2.1, h.2.2.1, h.2.2.2.1, h.2.2.2.2]

theorem scriptBodyStep_flagCount (cfg : Config) (st : FormatterState)
    (t : String) : flagCount (scriptBodyStep cfg st t) = flagCount st := by
  unfold scriptBodyStep
  dsimp only
  split_ifs <;> rfl

theorem scriptStyleDispatch_flagCount (cfg : Config) (st : FormatterState)
    (line t : String) (hc : st.inComment = false) (hv : st.inVerbatim = false)
    (hs : st.inScriptTag = false) (hy : st.inStyleTag = false)
    (ha : st.insideTwigAttribute = false) :
    flagCount (scriptStyleDispatch cfg st line t) ≤ 1 := by
  unfold scriptStyleDispatch
  dsimp only
  rw [hs, hy]
  split_ifs <;>
    first
    | (simp [flagCount, hc, hv, hs, hy, ha]; done)
    | (rw [foldl_processItem_flagCount]; simp [flagCount, hc, hv, hs, hy, ha];
        done)
    | simp_all

theorem regionDispatch_flagCount (cfg : Config) (st : FormatterState)
    (line t : String) (hc : st.inComment = false) (hv : st.inVerbatim = false)
    (hs : st.inScriptTag = false) (hy : st.inStyleTag = false)
    (ha : st.insideTwigAttribute = false) :
    flagCount (regionDispatch cfg st line t) ≤ 1 := by
  unfold regionDispatch
  dsimp only
  rw [hc, hv]
  split_ifs <;>
    first
    | exact scriptStyleDispatch_flagCount cfg st line t hc hv hs hy ha
    | (simp [flagCount, hc, hv, hs, hy, ha]; done)
    | simp_all

/-! ### Claim theorems: invariants -/

/-- Claim C7: `templateDepth` and `markupDepth` never go below zero at any
point during a `format` invocation, for any input: every per-line state of
the run (first conjunct) and every per-run intermediate state within a line
(second conjunct) has non-negative depths, because every decrement in the
source is clamped with `Math.max(0, _)` and the script/style close rules
restore a previously saved (non-negative) base depth. -/
theorem depths_never_negative :
    (∀ (cfg : Config) (lines : List String) (st : FormatterState),
        st ∈ lines.scanl (processLine cfg) initialState →
        0 ≤ st.twigIndentLevel ∧ 0 ≤ st.htmlIndentLevel) ∧
    (∀ (cfg : Config) (st : FormatterState) (piece : String),
        depthInv st →
        0 ≤ (processItem cfg st piece).twigIndentLevel ∧
        0 ≤ (processItem cfg st piece).htmlIndentLevel) := by
  constructor
  · intro cfg lines st hst
    have h := scanl_processLine_inv cfg depthInv
      (fun s x hs => processLine_depthInv cfg s x hs) lines initialState
      (by exact ⟨le_refl 0, le_refl 0, le_refl 0, le_refl 0⟩) st hst
    exact ⟨h.1, h.2.1⟩
  · intro cfg st piece h
    have h2 := processItem_depthInv cfg st piece h
    exact ⟨h2.1, h2.2.1⟩

/-- Witness for C7, on a document consisting of excess closing tags. -/
theorem depths_never_negative_witness :
    (0 ≤ (processLine defaultConfig initialState "</div>").twigIndentLevel ∧
      0 ≤ (processLine defaultConfig initialState "</div>").htmlIndentLevel) ∧
    (0 ≤ (processItem defaultConfig initialState
        "\x7b% endif %\x7d").twigIndentLevel ∧
      0 ≤ (processItem defaultConfig initialState
        "\x7b% endif %\x7d").htmlIndentLevel) :=
  ⟨depths_never_negative.1 defaultConfig ["</div>"] _ (by decide),
   depths_never_negative.2 defaultConfig initialState "\x7b% endif %\x7d"
     (by decide)⟩

/-- Claim C8 (amended): starting from a state with all five mode flags clear,
processing one line sets at most one flag — the per-line rules short-circuit
each other —, which is the exclusivity that actually holds (across several
lines two flags can coexist, see the counterexample). -/
theorem single_line_sets_at_most_one_flag (cfg : Config) (st : FormatterState)
    (line : String) (h : flagsClear st) :
    flagCount (processLine cfg st line) ≤ 1 := by
  obtain ⟨hc, hv, hs, hy, ha⟩ := h
  unfold processLine
  dsimp only
  rw [ha]
  simp only [Bool.false_eq_true, if_false]
  split
  · simp [attrStartState, flagCount, hc, hv, hs, hy]
  · split
    · simp [singleAttrStep, flagCount, hc, hv, hs, hy, ha]
    · split
      · simp [flagCount, hc, hv, hs, hy, ha]
      · split
        · simp [flagCount, hc, hv, hs, hy, ha]
        · exact regionDispatch_flagCount cfg st line (jsTrim line) hc hv hs hy ha

/-- Witness for the amended C8 at a script-opening line. -/
theorem single_line_sets_at_most_one_flag_witness :
    flagCount (processLine defaultConfig initialState "<script>") ≤ 1 :=
  single_line_sets_at_most_one_flag defaultConfig initialState "<script>"
    (by decide)

end TwigFmt

namespace TwigFmt

/-! ### The Tag Splitter partitions a line -/

/-- The pieces produced by the splitting loop concatenate back to the line. -/
theorem twigSplitAux_join (fuel : Nat) (s : List Char) :
    (twigSplitAux fuel s).join = s := by
  induction fuel generalizing s with
  | zero =>
    by_cases h : s.isEmpty
    · simp [twigSplitAux, h, List.isEmpty_iff.mp h]
    · simp [twigSplitAux, h]
  | succ n ih =>
    rw [twigSplitAux]
    cases hse : searchAux reTwigSpan s 0 with
    | none =>
      by_cases h : s.isEmpty
      · simp [h, List.isEmpty_iff.mp h]
      · simp [h]
    | some r =>
      obtain ⟨i, len, cs⟩ := r
      by_cases hlen : len = 0
      · by_cases h : s.isEmpty
        · simp [hlen, h, List.isEmpty_iff.mp h]
        · simp [hlen, h]
      · by_cases hi : i = 0
        · subst hi
          simp [hlen, ih, sliceOf]
        · simp only [hlen, hi, if_false, ite_false]
          simp [ih, sliceOf]

theorem trimList_nil_iff (l : List Char) :
    trimList l = [] ↔ ∀ c ∈ l, jsWs c := by
  unfold trimList
  rw [List.reverse_eq_nil_iff, List.dropWhile_eq_nil_iff]
  constructor
  · intro h c hc
    rcases List.mem_append.mp ((List.takeWhile_append_dropWhile jsWs l) ▸ hc)
      with h1 | h1
    · exact List.mem_takeWhile_imp h1
    · exact h c (List.mem_reverse.mpr h1)
  · intro h c hc
    exact h c ((List.dropWhile_sublist jsWs).subset (List.mem_reverse.mp hc))

/-- A line with non-blank content always yields at least one run. -/
theorem splitTwigLine_ne_nil (line : String) (h : jsTrim line ≠ "") :
    splitTwigLine line ≠ [] := by
  intro hnil
  apply h
  unfold splitTwigLine at hnil
  rw [List.filter_eq_nil] at hnil
  have hall : ∀ c ∈ line.data, jsWs c := by
    intro c hc
    have hj : c ∈ (twigSplitAux (line.data.length + 1) line.data).join := by
      rw [twigSplitAux_join]; exact hc
    obtain ⟨p, hp, hcp⟩ := List.mem_join.mp hj
    have hps : String.mk p ∈
        (twigSplitAux (line.data.length + 1) line.data).map String.mk :=
      List.mem_map_of_mem String.mk hp
    have h0 := hnil _ hps
    simp only [decide_eq_true_eq, not_lt, Nat.le_zero] at h0
    have h1 : (trimList p).length = 0 := h0
    exact (trimList_nil_iff p).mp (List.length_eq_zero.mp h1) c hcp
  have h2 : trimList line.data = [] := (trimList_nil_iff line.data).mpr hall
  show jsTrim line = ""
  unfold jsTrim
  rw [h2]

/-! ### Per-branch output accounting -/

theorem scriptBodyStep_out (cfg : Config) (st : FormatterState) (t : String) :
    (scriptBodyStep cfg st t).formattedLines = st.formattedLines ++
      [indentStr cfg (st.twigIndentLevel +
        (if lineNet t < 0 then max 0 (st.htmlIndentLevel + lineNet t)
         else st.htmlIndentLevel)) ++ t] := by
  unfold scriptBodyStep
  dsimp only
  split_ifs <;> simp_all

/-- With all flags clear, a line on which no attribute, blank, comment,
verbatim, or script/style rule fires is handled by the per-run normal path. -/
theorem processLine_normal (cfg : Config) (st : FormatterState) (line : String)
    (hf : flagsClear st) (hl : scriptBodyLine line) :
    processLine cfg st line = (splitTwigLine line).foldl (processItem cfg) st := by
  obtain ⟨hc, hv, hs, hy, ha⟩ := hf
  obtain ⟨hm, h1, ht, hcm, hvb, hsco, hscc, hsto, hstc⟩ := hl
  unfold processLine regionDispatch scriptStyleDispatch
  dsimp only
  rw [ha, hm]
  simp only [Bool.false_eq_true, if_false, h1, decide_eq_false ht, hc, hv,
    hcm, hvb, hsco, hscc, hsto, hstc, hs, hy, Bool.false_and, Bool.and_false,
    Bool.not_true, Bool.not_false, Bool.and_true, if_true, Bool.true_eq_false,
    Bool.false_or, Bool.or_false, Bool.or_self]
  rw [if_neg ht]

theorem regionDispatch_out_grows (cfg : Config) (st : FormatterState)
    (line t : String) (htne : jsTrim line ≠ "") :
    st.formattedLines.length + 1 ≤
      (regionDispatch cfg st line t).formattedLines.length := by
  unfold regionDispatch scriptStyleDispatch
  dsimp only
  split_ifs <;>
    first
    | (simp; done)
    | (rw [scriptBodyStep_out]; simp; done)
    | (rw [foldl_processItem_out_length]
       have h2 : splitTwigLine line ≠ [] := splitTwigLine_ne_nil line htne
       have h3 : 0 < (splitTwigLine line).length := List.length_pos.mpr h2
       omega)

/-! ### Claim theorems: line accounting, mid-block tags, buffered attributes,
script/style closing -/

/-- Claim C2 (amended): with `preserveBlankLines = true`, every line that is
not buffered into a multi-line attribute produces at least one output line
(first conjunct: no line is merged or dropped), and a line handled by the
normal run path produces exactly one output line per Run (second conjunct:
a one-to-many expansion for lines with several runs). -/
theorem line_output_growth :
    (∀ (cfg : Config) (st : FormatterState) (line : String),
        cfg.preserveNewLines = true →
        st.insideTwigAttribute = false →
        reSearch reAttrStart line = none →
        st.formattedLines.length + 1 ≤
          (processLine cfg st line).formattedLines.length) ∧
    (∀ (cfg : Config) (st : FormatterState) (line : String),
        flagsClear st →
        scriptBodyLine line →
        (processLine cfg st line).formattedLines.length =
          st.formattedLines.length + (splitTwigLine line).length) := by
  constructor
  · intro cfg st line hp ha hm
    unfold processLine
    dsimp only
    rw [ha, hm]
    simp only [Bool.false_eq_true, if_false]
    split
    · unfold singleAttrStep
      simp
    · split
      · simp
      · split
        · rename_i hcond hblank
          rw [hp] at hcond
          simp_all
        · rename_i hcond hblank
          exact regionDispatch_out_grows cfg st line (jsTrim line) hblank
  · intro cfg st line hf hl
    rw [processLine_normal cfg st line hf hl]
    exact foldl_processItem_out_length cfg _ st

/-- Witness for the amended C2: a plain line gains one output line, and a
line with a template span and trailing text yields one line per run. -/
theorem line_output_growth_witness :
    (initialState.formattedLines.length + 1 ≤
      (processLine defaultConfig initialState "hello").formattedLines.length) ∧
    ((processLine defaultConfig initialState
        "\x7b\x7b a \x7d\x7d b").formattedLines.length =
      initialState.formattedLines.length +
        (splitTwigLine "\x7b\x7b a \x7d\x7d b").length) :=
  ⟨line_output_growth.1 defaultConfig initialState "hello" rfl rfl (by decide),
   line_output_growth.2 defaultConfig initialState "\x7b\x7b a \x7d\x7d b"
     (by decide) (by decide)⟩

/-- Every mid-block pattern is also in the closing-tag pattern list. -/
theorem isMidBlockTag_isClosingTag (s : String) (h : isMidBlockTag s = true) :
    isClosingTag s = true := by
  unfold isMidBlockTag midBlockTags at h
  unfold isClosingTag closingTags
  simp only [List.any_cons, List.any_nil, Bool.or_eq_true, Bool.or_false] at h ⊢
  tauto

/-- Claim C6 (amended): a Run that is a mid-block tag and is not classified
as a template expression inside a markup attribute is emitted with
`templateDepth` decremented (clamped at zero) — the mid-block patterns are
also in the closing-tag list — and `templateDepth` is incremented after
emission; in the `if`/`else` scenario the branches X and Y are indented
identically, one level deeper than the tags. -/
theorem midblock_decrements_then_increments :
    (∀ (cfg : Config) (st : FormatterState) (piece : String),
        isMidBlockTag (jsTrim piece) = true →
        isTwigInsideAttribute (jsTrim piece) = false →
        (processItem cfg st piece).formattedLines = st.formattedLines ++
          [indentStr cfg (max 0 (st.twigIndentLevel - 1) +
            (if shouldDecreaseHtmlIndent (jsTrim piece)
                (isHtmlOpeningTag (jsTrim piece) &&
                  isHtmlClosingTag (jsTrim piece)) = true
              then max 0 (st.htmlIndentLevel - 1) else st.htmlIndentLevel)) ++
            jsTrim piece] ∧
        (processItem cfg st piece).twigIndentLevel =
          (if (isOpeningTag (jsTrim piece) && !isSelfClosingTag (jsTrim piece) &&
              !isSingleLineBlock (jsTrim piece)) = true
            then max 0 (st.twigIndentLevel - 1) + 1
            else max 0 (st.twigIndentLevel - 1)) + 1) ∧
    format defaultConfig
        "\x7b% if a %\x7d\nX\n\x7b% else %\x7d\nY\n\x7b% endif %\x7d" =
      "\x7b% if a %\x7d\n    X\n\x7b% else %\x7d\n    Y\n\x7b% endif %\x7d" := by
  refine ⟨?_, by decide⟩
  intro cfg st piece hmid hattr
  have hcl := isMidBlockTag_isClosingTag _ hmid
  unfold processItem
  dsimp only
  rw [hattr]
  simp only [Bool.false_eq_true, if_false, hcl, if_true, hmid]
  refine ⟨?_, ?_⟩ <;> first | rfl | trivial

/-- Witness for the amended C6 at the run `{% else %}`. -/
theorem midblock_decrements_then_increments_witness :
    (processItem defaultConfig initialState "\x7b% else %\x7d").formattedLines =
      initialState.formattedLines ++
        [indentStr defaultConfig (max 0 (initialState.twigIndentLevel - 1) +
          (if shouldDecreaseHtmlIndent (jsTrim "\x7b% else %\x7d")
              (isHtmlOpeningTag (jsTrim "\x7b% else %\x7d") &&
                isHtmlClosingTag (jsTrim "\x7b% else %\x7d")) = true
            then max 0 (initialState.htmlIndentLevel - 1)
            else initialState.htmlIndentLevel)) ++ jsTrim "\x7b% else %\x7d"] ∧
    (processItem defaultConfig initialState "\x7b% else %\x7d").twigIndentLevel =
      (if (isOpeningTag (jsTrim "\x7b% else %\x7d") &&
          !isSelfClosingTag (jsTrim "\x7b% else %\x7d") &&
          !isSingleLineBlock (jsTrim "\x7b% else %\x7d")) = true
        then max 0 (initialState.twigIndentLevel - 1) + 1
        else max 0 (initialState.twigIndentLevel - 1)) + 1 :=
  midblock_decrements_then_increments.1 defaultConfig initialState
    "\x7b% else %\x7d" (by decide) (by decide)

/-- Claim C9: reaching the end of the input while buffering an unterminated
multi-line attribute drops the buffered lines from the output and `format`
returns normally.  First conjunct: the line that opens the buffer emits
nothing.  Second conjunct: a continuation line that leaves the quote count
odd emits nothing and stays in `InAttribute`.  Third conjunct: a concrete
two-line document left unterminated formats to the empty output. -/
theorem unterminated_attribute_buffer_dropped :
    (∀ (cfg : Config) (st : FormatterState) (line : String) r,
        st.insideTwigAttribute = false →
        reSearch reAttrStart line = some r →
        (processLine cfg st line).formattedLines = st.formattedLines ∧
        (processLine cfg st line).insideTwigAttribute = true) ∧
    (∀ (cfg : Config) (st : FormatterState) (line : String),
        st.insideTwigAttribute = true →
        countChar (st.attributeQuote.getD '\x22')
            (String.intercalate "\n" (st.attributeLines ++ [line])) % 2 ≠ 0 →
        (processLine cfg st line).formattedLines = st.formattedLines ∧
        (processLine cfg st line).insideTwigAttribute = true) ∧
    format defaultConfig "<div class=\x22a \x7b\x7b b \x7d\x7d\nstill open" = "" := by
  refine ⟨?_, ?_, by decide⟩
  · intro cfg st line r ha hm
    unfold processLine attrStartState
    dsimp only
    rw [ha, hm]
    simp
  · intro cfg st line ha hodd
    unfold processLine attrContinuationStep
    dsimp only
    rw [ha]
    simp only [if_true]
    rw [if_neg hodd]
    exact ⟨rfl, rfl⟩

/-- Witness for C9: the attribute-start line and an odd continuation line
both leave the output untouched. -/
theorem unterminated_attribute_buffer_dropped_witness :
    ((processLine defaultConfig initialState
        "<div class=\x22a \x7b\x7b b \x7d\x7d").formattedLines =
      initialState.formattedLines ∧
      (processLine defaultConfig initialState
        "<div class=\x22a \x7b\x7b b \x7d\x7d").insideTwigAttribute = true) ∧
    ((processLine defaultConfig (processLine defaultConfig initialState
          "<div class=\x22a \x7b\x7b b \x7d\x7d") "still open").formattedLines =
        (processLine defaultConfig initialState
          "<div class=\x22a \x7b\x7b b \x7d\x7d").formattedLines ∧
      (processLine defaultConfig (processLine defaultConfig initialState
          "<div class=\x22a \x7b\x7b b \x7d\x7d") "still open").insideTwigAttribute
        = true) :=
  ⟨unterminated_attribute_buffer_dropped.1 defaultConfig initialState
      "<div class=\x22a \x7b\x7b b \x7d\x7d" _ (by decide) rfl,
   unterminated_attribute_buffer_dropped.2.1 defaultConfig
      (processLine defaultConfig initialState "<div class=\x22a \x7b\x7b b \x7d\x7d")
      "still open" (by decide) (by decide)⟩

/-- Claim C10: a line whose trimmed content matches the closing script
(resp. style) pattern — and on which no earlier rule fires — is handled by
the close rule even when no region is open: `markupDepth` is **assigned**
the saved base depth (zero in the initial state, where no region was ever
opened) instead of being decremented by one, and the line is emitted at that
restored indent.  The concrete conjunct shows the assignment (depth 2 would
become 1 under an ordinary decrement; it becomes 0). -/
theorem script_style_close_restores_base :
    (∀ (cfg : Config) (st : FormatterState) (line : String),
        flagsClear st →
        reSearch reAttrStart line = none →
        reTest reSingleAttr line = false →
        jsTrim line ≠ "" →
        hasSub "\x7b#" (jsTrim line) = false →
        reTest reVerbatimOpen (jsTrim line) = false →
        reTest reStyleOpen (jsTrim line) = false →
        reTest reScriptClose (jsTrim line) = true →
        (processLine cfg st line).htmlIndentLevel = st.scriptTagBaseIndent ∧
        (processLine cfg st line).inScriptTag = false ∧
        (processLine cfg st line).formattedLines = st.formattedLines ++
          [indentStr cfg (st.twigIndentLevel + st.scriptTagBaseIndent) ++
            jsTrim line]) ∧
    (∀ (cfg : Config) (st : FormatterState) (line : String),
        flagsClear st →
        reSearch reAttrStart line = none →
        reTest reSingleAttr line = false →
        jsTrim line ≠ "" →
        hasSub "\x7b#" (jsTrim line) = false →
        reTest reVerbatimOpen (jsTrim line) = false →
        reTest reScriptOpen (jsTrim line) = false →
        reTest reScriptClose (jsTrim line) = false →
        reTest reStyleClose (jsTrim line) = true →
        (processLine cfg st line).htmlIndentLevel = st.styleTagBaseIndent ∧
        (processLine cfg st line).inStyleTag = false ∧
        (processLine cfg st line).formattedLines = st.formattedLines ++
          [indentStr cfg (st.twigIndentLevel + st.styleTagBaseIndent) ++
            jsTrim line]) ∧
    format defaultConfig "<div>\n<div>\n</script>" =
      "<div>\n    <div>\n</script>" := by
  refine ⟨?_, ?_, by decide⟩
  · intro cfg st line hf hm h1 ht hcm hvb hso hsc
    obtain ⟨hc, hv, hs, hy, ha⟩ := hf
    unfold processLine regionDispatch scriptStyleDispatch
    dsimp only
    rw [ha, hm]
    simp only [Bool.false_eq_true, if_false, h1, decide_eq_false ht, hc, hv,
      hcm, hvb, hso, hsc, Bool.false_and, Bool.and_false, Bool.not_true,
      Bool.false_eq_true, if_false, if_true, Bool.true_eq_false,
      Bool.false_or, Bool.or_false]
    rw [if_neg ht]
    exact ⟨rfl, rfl, rfl⟩
  · intro cfg st line hf hm h1 ht hcm hvb hso hsc hyc
    obtain ⟨hc, hv, hs, hy, ha⟩ := hf
    unfold processLine regionDispatch scriptStyleDispatch
    dsimp only
    rw [ha, hm]
    simp only [Bool.false_eq_true, if_false, h1, decide_eq_false ht, hc, hv,
      hcm, hvb, hso, hsc, hyc, Bool.false_and, Bool.and_false, Bool.not_true,
      Bool.not_false, Bool.and_true, Bool.false_eq_true, if_false, if_true,
      Bool.true_eq_false, Bool.false_or, Bool.or_false]
    rw [if_neg ht]
    exact ⟨rfl, rfl, rfl⟩

/-- Witness for C10: closing tags processed from the initial state (no
region ever opened) restore base depth zero. -/
theorem script_style_close_restores_base_witness :
    ((processLine defaultConfig initialState "</script>").htmlIndentLevel =
        initialState.scriptTagBaseIndent ∧
      (processLine defaultConfig initialState "</script>").inScriptTag = false ∧
      (processLine defaultConfig initialState "</script>").formattedLines =
        initialState.formattedLines ++
          [indentStr defaultConfig (initialState.twigIndentLevel +
              initialState.scriptTagBaseIndent) ++ jsTrim "</script>"]) ∧
    ((processLine defaultConfig initialState "</style>").htmlIndentLevel =
        initialState.styleTagBaseIndent ∧
      (processLine defaultConfig initialState "</style>").inStyleTag = false ∧
      (processLine defaultConfig initialState "</style>").formattedLines =
        initialState.formattedLines ++
          [indentStr defaultConfig (initialState.twigIndentLevel +
              initialState.styleTagBaseIndent) ++ jsTrim "</style>"]) :=
  ⟨script_style_close_restores_base.1 defaultConfig initialState "</script>"
      (by decide) (by decide) (by decide) (by decide) (by decide) (by decide)
      (by decide) (by decide),
   script_style_close_restores_base.2.1 defaultConfig initialState "</style>"
      (by decide) (by decide) (by decide) (by decide) (by decide) (by decide)
      (by decide) (by decide) (by decide)⟩

end TwigFmt

namespace TwigFmt

theorem scriptBodyStep_fields (cfg : Config) (st : FormatterState) (t : String) :
    (scriptBodyStep cfg st t).htmlIndentLevel =
      scriptStepDepth st.htmlIndentLevel (lineNet t) ∧
    (scriptBodyStep cfg st t).twigIndentLevel = st.twigIndentLevel ∧
    (scriptBodyStep cfg st t).inComment = st.inComment ∧
    (scriptBodyStep cfg st t).inVerbatim = st.inVerbatim ∧
    (scriptBodyStep cfg st t).inScriptTag = st.inScriptTag ∧
    (scriptBodyStep cfg st t).inStyleTag = st.inStyleTag ∧
    (scriptBodyStep cfg st t).insideTwigAttribute = st.insideTwigAttribute := by
  unfold scriptBodyStep scriptStepDepth
  dsimp only
  split_ifs <;> simp_all <;> omega

theorem processLine_scriptBody (cfg : Config) (st : FormatterState)
    (line : String) (hc : st.inComment = false) (hv : st.inVerbatim = false)
    (ha : st.insideTwigAttribute = false)
    (hor : (st.inScriptTag || st.inStyleTag) = true)
    (hl : scriptBodyLine line) :
    processLine cfg st line = scriptBodyStep cfg st (jsTrim line) := by
  obtain ⟨hm, h1, ht, hcm, hvb, hsco, hscc, hsto, hstc⟩ := hl
  unfold processLine regionDispatch scriptStyleDispatch
  dsimp only
  rw [ha, hm]
  simp only [Bool.false_eq_true, if_false, h1, decide_eq_false ht, hc, hv,
    hcm, hvb, hsco, hscc, hsto, hstc, hor, Bool.false_and, Bool.and_false,
    Bool.not_true, Bool.not_false, Bool.and_true, if_true, Bool.true_eq_false,
    Bool.false_or, Bool.or_false]
  rw [if_neg ht]

theorem procLines_scriptSeg (cfg : Config) (body : List String) :
    ∀ (st : FormatterState), (∀ L ∈ body, scriptBodyLine L) →
    st.inComment = false → st.inVerbatim = false →
    st.insideTwigAttribute = false → st.inScriptTag = true →
    (procLines cfg st body).twigIndentLevel = st.twigIndentLevel ∧
    (procLines cfg st body).htmlIndentLevel =
      (body.map fun L => lineNet (jsTrim L)).foldl scriptStepDepth
        st.htmlIndentLevel ∧
    (procLines cfg st body).inComment = false ∧
    (procLines cfg st body).inVerbatim = false ∧
    (procLines cfg st body).insideTwigAttribute = false ∧
    (procLines cfg st body).inScriptTag = true ∧
    ∃ em : List String, (procLines cfg st body).formattedLines =
      st.formattedLines ++ em ∧ em.length = body.length := by
  induction body with
  | nil =>
    intro st hb hc hv ha hs
    exact ⟨rfl, rfl, hc, hv, ha, hs, [], by simp [procLines], rfl⟩
  | cons L tl ih =>
    intro st hb hc hv ha hs
    have hL := hb L (List.mem_cons_self L tl)
    have hstep := processLine_scriptBody cfg st L hc hv ha (by rw [hs]; rfl) hL
    have hf := scriptBodyStep_fields cfg st (jsTrim L)
    have hout := scriptBodyStep_out cfg st (jsTrim L)
    have hrw : procLines cfg st (L :: tl) =
        procLines cfg (scriptBodyStep cfg st (jsTrim L)) tl := by
      unfold procLines
      rw [List.foldl_cons, hstep]
    obtain ⟨i1, i2, i3, i4, i5, i6, em, hem, hlen⟩ :=
      ih (scriptBodyStep cfg st (jsTrim L))
        (fun M hM => hb M (List.mem_cons_of_mem L hM))
        (hf.2.2.1.trans hc) (hf.2.2.2.1.trans hv)
        (hf.2.2.2.2.2.2.trans ha) (hf.2.2.2.2.1.trans hs)
    rw [hrw]
    refine ⟨i1.trans hf.2.1, ?_, i3, i4, i5, i6, ?_⟩
    · rw [i2, hf.1]
      simp [List.foldl_cons]
    · refine ⟨(indentStr cfg (st.twigIndentLevel +
        (if lineNet (jsTrim L) < 0
          then max 0 (st.htmlIndentLevel + lineNet (jsTrim L))
          else st.htmlIndentLevel)) ++ jsTrim L) :: em, ?_, by simp [hlen]⟩
      rw [hem, hout]
      simp

theorem foldl_scriptStepDepth_nonneg (ns : List Int) :
    ∀ (h0 : Int), 0 ≤ h0 → 0 ≤ ns.foldl scriptStepDepth h0 := by
  induction ns with
  | nil => intro h0 h; exact h
  | cons n tl ih =>
    intro h0 h
    rw [List.foldl_cons]
    apply ih
    unfold scriptStepDepth
    split_ifs with h1 h2
    · exact le_max_left 0 _
    · omega
    · exact h

theorem foldl_scriptStepDepth_sum (ns : List Int) :
    ∀ (h0 : Int), (∀ n ∈ ns, -1 ≤ n) →
    (∀ k, k ≤ ns.length → 1 ≤ h0 + (ns.take k).sum) →
    ns.foldl scriptStepDepth h0 = h0 + ns.sum := by
  induction ns with
  | nil => intro h0 _ _; simp
  | cons n tl ih =>
    intro h0 hlb hpre
    have h1 : 1 ≤ h0 + n := by
      have h2 := hpre 1 (by simp)
      simpa using h2
    have hstep : scriptStepDepth h0 n = h0 + n := by
      unfold scriptStepDepth
      split_ifs with hneg hpos
      · exact max_eq_right (by omega)
      · rfl
      · omega
    rw [List.foldl_cons, hstep,
      ih (h0 + n) (fun m hm => hlb m (List.mem_cons_of_mem n hm)) ?_]
    · rw [List.sum_cons]; ring
    · intro k hk
      have h3 := hpre (k + 1) (by simpa using Nat.succ_le_succ hk)
      rw [List.take_succ_cons, List.sum_cons] at h3
      omega

end TwigFmt

namespace TwigFmt

/-- Claim C5: inside a script/style region, `format` computes the line's net
brace/bracket delta; a negative delta is applied to `markupDepth` (clamped at
zero) before the line's indent is computed and a positive delta only after
the line is emitted (first conjunct).  Consequently (second conjunct), for a
script body consisting of a line opening a block (net `+1`), a balanced
middle (partial sums non-negative, total zero), and the matching closing
line (net `-1`), the opening and the closing line are emitted at the same
indent. -/
theorem script_brace_matched_indent :
    (∀ (cfg : Config) (st : FormatterState) (line : String),
        st.inComment = false → st.inVerbatim = false →
        st.insideTwigAttribute = false →
        (st.inScriptTag || st.inStyleTag) = true →
        scriptBodyLine line →
        (processLine cfg st line).formattedLines = st.formattedLines ++
          [indentStr cfg (st.twigIndentLevel +
            (if lineNet (jsTrim line) < 0
              then max 0 (st.htmlIndentLevel + lineNet (jsTrim line))
              else st.htmlIndentLevel)) ++ jsTrim line] ∧
        (processLine cfg st line).htmlIndentLevel =
          scriptStepDepth st.htmlIndentLevel (lineNet (jsTrim line))) ∧
    (∀ (cfg : Config) (st : FormatterState)
        (pre mid : List String) (openL closeL : String),
        st.inComment = false → st.inVerbatim = false →
        st.insideTwigAttribute = false → st.inScriptTag = true →
        0 ≤ st.htmlIndentLevel →
        (∀ L ∈ pre, scriptBodyLine L) → scriptBodyLine openL →
        (∀ L ∈ mid, scriptBodyLine L) → scriptBodyLine closeL →
        lineNet (jsTrim openL) = 1 → lineNet (jsTrim closeL) = -1 →
        (∀ L ∈ mid, -1 ≤ lineNet (jsTrim L)) →
        (∀ k : Nat, 0 ≤ (((mid.map fun L => lineNet (jsTrim L)).take k)).sum) →
        (mid.map fun L => lineNet (jsTrim L)).sum = 0 →
        ∃ e : Int, 0 ≤ e ∧
          (procLines cfg st
              (pre ++ openL :: (mid ++ [closeL]))).formattedLines.get?
              (st.formattedLines.length + pre.length) =
            some (indentStr cfg (st.twigIndentLevel + e) ++ jsTrim openL) ∧
          (procLines cfg st
              (pre ++ openL :: (mid ++ [closeL]))).formattedLines.get?
              (st.formattedLines.length + pre.length + 1 + mid.length) =
            some (indentStr cfg (st.twigIndentLevel + e) ++ jsTrim closeL)) := by
  constructor
  · intro cfg st line hc hv ha hor hl
    rw [processLine_scriptBody cfg st line hc hv ha hor hl]
    exact ⟨scriptBodyStep_out cfg st (jsTrim line),
      (scriptBodyStep_fields cfg st (jsTrim line)).1⟩
  · intro cfg st pre mid openL closeL hc hv ha hs hh0 hpre hopen hmid hclose
      hno hnc hlb hpsum hbal
    obtain ⟨a1, a2, a3, a4, a5, a6, emA, hemA, hlenA⟩ :=
      procLines_scriptSeg cfg pre st hpre hc hv ha hs
    have hHaNN : 0 ≤ (procLines cfg st pre).htmlIndentLevel := by
      rw [a2]
      exact foldl_scriptStepDepth_nonneg _ _ hh0
    have hBdef : processLine cfg (procLines cfg st pre) openL =
        scriptBodyStep cfg (procLines cfg st pre) (jsTrim openL) :=
      processLine_scriptBody cfg _ openL a3 a4 a5 (by rw [a6]; rfl) hopen
    have hBf := scriptBodyStep_fields cfg (procLines cfg st pre) (jsTrim openL)
    have hBout := scriptBodyStep_out cfg (procLines cfg st pre) (jsTrim openL)
    have hBhtml : (scriptBodyStep cfg (procLines cfg st pre)
        (jsTrim openL)).htmlIndentLevel =
        (procLines cfg st pre).htmlIndentLevel + 1 := by
      rw [hBf.1, hno]
      unfold scriptStepDepth
      norm_num
    obtain ⟨c1, c2, c3, c4, c5, c6, emC, hemC, hlenC⟩ :=
      procLines_scriptSeg cfg mid
        (scriptBodyStep cfg (procLines cfg st pre) (jsTrim openL)) hmid
        (hBf.2.2.1.trans a3) (hBf.2.2.2.1.trans a4)
        (hBf.2.2.2.2.2.2.trans a5) (hBf.2.2.2.2.1.trans a6)
    have hChtml : (procLines cfg
        (scriptBodyStep cfg (procLines cfg st pre) (jsTrim openL))
        mid).htmlIndentLevel =
        (procLines cfg st pre).htmlIndentLevel + 1 := by
      rw [c2, hBhtml]
      rw [foldl_scriptStepDepth_sum _ _
        (fun n hn => by
          obtain ⟨L, hL, he⟩ := List.mem_map.mp hn
          exact he ▸ hlb L hL)
        (fun k hk => by
          have h9 := hpsum k
          omega)]
      rw [hbal]
      ring
    have hDdef : processLine cfg (procLines cfg
        (scriptBodyStep cfg (procLines cfg st pre) (jsTrim openL)) mid)
        closeL =
        scriptBodyStep cfg (procLines cfg
          (scriptBodyStep cfg (procLines cfg st pre) (jsTrim openL)) mid)
          (jsTrim closeL) :=
      processLine_scriptBody cfg _ closeL c3 c4 c5 (by rw [c6]; rfl) hclose
    have hDout := scriptBodyStep_out cfg (procLines cfg
      (scriptBodyStep cfg (procLines cfg st pre) (jsTrim openL)) mid)
      (jsTrim closeL)
    have hdecomp : procLines cfg st (pre ++ openL :: (mid ++ [closeL])) =
        processLine cfg (procLines cfg
          (processLine cfg (procLines cfg st pre) openL) mid) closeL := by
      unfold procLines
      rw [List.foldl_append, List.foldl_cons, List.foldl_append,
        List.foldl_cons, List.foldl_nil]
    -- the two emitted lines
    have hxB : (scriptBodyStep cfg (procLines cfg st pre)
        (jsTrim openL)).formattedLines =
        ((st.formattedLines ++ emA) ++
          [indentStr cfg (st.twigIndentLevel +
            (procLines cfg st pre).htmlIndentLevel) ++ jsTrim openL]) := by
      rw [hBout, hemA, a1, hno]
      norm_num
    have hxD : (procLines cfg st
        (pre ++ openL :: (mid ++ [closeL]))).formattedLines =
        ((((st.formattedLines ++ emA) ++
          [indentStr cfg (st.twigIndentLevel +
            (procLines cfg st pre).htmlIndentLevel) ++ jsTrim openL]) ++ emC) ++
          [indentStr cfg (st.twigIndentLevel +
            (procLines cfg st pre).htmlIndentLevel) ++ jsTrim closeL]) := by
      rw [hdecomp, hBdef, hDdef, hDout, hemC, hxB, hnc, hChtml,
        c1, hBf.2.1, a1]
      have h8 : (if (-1 : Int) < 0 then
          0 ⊔ ((procLines cfg st pre).htmlIndentLevel + 1 + -1)
          else (procLines cfg st pre).htmlIndentLevel + 1) =
          (procLines cfg st pre).htmlIndentLevel := by
        rw [if_pos (by norm_num)]
        rw [show (procLines cfg st pre).htmlIndentLevel + 1 + -1 =
          (procLines cfg st pre).htmlIndentLevel from by ring]
        exact max_eq_right hHaNN
      rw [h8]
    refine ⟨(procLines cfg st pre).htmlIndentLevel, hHaNN, ?_, ?_⟩
    · rw [hxD]
      have hlt1 : st.formattedLines.length + pre.length <
          (((st.formattedLines ++ emA) ++
            [indentStr cfg (st.twigIndentLevel +
              (procLines cfg st pre).htmlIndentLevel) ++ jsTrim openL]) ++
            emC).length := by
        simp [hlenA]
      rw [List.get?_append hlt1]
      have hlt2 : st.formattedLines.length + pre.length <
          ((st.formattedLines ++ emA) ++
            [indentStr cfg (st.twigIndentLevel +
              (procLines cfg st pre).htmlIndentLevel) ++ jsTrim openL]).length := by
        simp [hlenA]
      rw [List.get?_append hlt2]
      have hidx : st.formattedLines.length + pre.length =
          (st.formattedLines ++ emA).length := by
        simp [hlenA]
      rw [hidx, List.get?_concat_length]
    · rw [hxD]
      have hidx2 : st.formattedLines.length + pre.length + 1 + mid.length =
          (((st.formattedLines ++ emA) ++
            [indentStr cfg (st.twigIndentLevel +
              (procLines cfg st pre).htmlIndentLevel) ++ jsTrim openL]) ++
            emC).length := by
        simp [hlenA, hlenC]
        omega
      rw [hidx2, List.get?_concat_length]

end TwigFmt

namespace TwigFmt

/-- Witness for C5: a two-line script body `f() \x7b` / `\x7d` directly after
`<script>`; both lines are emitted at the same indent. -/
theorem script_brace_matched_indent_witness :
    ∃ e : Int, 0 ≤ e ∧
      (procLines defaultConfig
          (processLine defaultConfig initialState "<script>")
          ([] ++ "f() \x7b" :: ([] ++ ["\x7d"]))).formattedLines.get?
          ((processLine defaultConfig initialState
            "<script>").formattedLines.length +
            List.length ([] : List String)) =
        some (indentStr defaultConfig
          ((processLine defaultConfig initialState "<script>").twigIndentLevel
            + e) ++ jsTrim "f() \x7b") ∧
      (procLines defaultConfig
          (processLine defaultConfig initialState "<script>")
          ([] ++ "f() \x7b" :: ([] ++ ["\x7d"]))).formattedLines.get?
          ((processLine defaultConfig initialState
            "<script>").formattedLines.length +
            List.length ([] : List String) + 1 +
            List.length ([] : List String)) =
        some (indentStr defaultConfig
          ((processLine defaultConfig initialState "<script>").twigIndentLevel
            + e) ++ jsTrim "\x7d") :=
  script_brace_matched_indent.2 defaultConfig
    (processLine defaultConfig initialState "<script>") [] [] "f() \x7b" "\x7d"
    (by decide) (by decide) (by decide) (by decide) (by decide)
    (by decide) (by decide) (by decide) (by decide) (by decide) (by decide)
    (by decide) (fun k => by simp) (by decide)


end TwigFmt
